import Mathlib

/-!
Verification of the tar streaming (`/get`) and ranged extraction (`/cat`)
pipeline of `src/http/src/v0/root_files.rs`, as a shallow embedding.

Bytes are `Nat`, byte strings are `List Nat`.  The mutable `tar::Header`
(512 bytes) is a record of its fields; `headerBytes` performs the byte-level
serialization (numeric fields in zero-padded ASCII octal followed by a NUL,
exactly the layout the `tar` crate writes for the fields this program sets).

The `tar` crate itself is an external dependency (not part of this
repository's sources); its `Header::set_path` / `Header::set_link_name`
entry points are modelled from the spec, see `setPath` / `setLinkName`.
All other definitions are translated directly from `root_files.rs`.
-/

set_option maxRecDepth 8192

namespace RootFiles

/-- ASCII bytes of the GNU long-name marker name `././@LongLink`
    (`new_long_filename_header`, line 324). -/
def longLinkName : List Nat := [46, 47, 46, 47, 64, 76, 111, 110, 103, 76, 105, 110, 107]

/-- Octal digits of `n`, least significant first, at most `fuel` digits
    (the serializer keeps the low-order digits, like tar's right-aligned
    `octal_into`). -/
def octRec : Nat → Nat → List Nat
  | 0, _ => []
  | fuel + 1, n => if n = 0 then [] else n % 8 :: octRec fuel (n / 8)

/-- Numeric tar header field of `width` bytes: `width - 1` zero-padded ASCII
    octal digits followed by a NUL byte. -/
def octalField (width n : Nat) : List Nat :=
  let digs := (octRec width n).take (width - 1)
  let digs := digs ++ List.replicate (width - 1 - digs.length) 0
  digs.reverse.map (fun d => d + 48) ++ [0]

/-- Fixed-width byte field: contents truncated to `width` and zero-filled. -/
def fieldBytes (width : Nat) (bs : List Nat) : List Nat :=
  bs.take width ++ List.replicate (width - bs.length) 0

/-- State of a reusable `tar::Header` (GNU dialect): the fields this program
    ever sets.  Numeric fields are kept as numbers; serialization is
    `headerBytes`. -/
structure Header where
  name : List Nat
  mode : Nat
  uid : Nat
  gid : Nat
  size : Nat
  mtime : Nat
  typeflag : Nat
  linkname : List Nat
  cksum : Nat
deriving DecidableEq

/-- Magic and version bytes of a GNU header: `ustar ` then ` \0`. -/
def magicBytes : List Nat := [117, 115, 116, 97, 114, 32, 32, 0]

/-- Serialization of the 512 header bytes with an explicit checksum field
    `ck`: name(100), mode(8), uid(8), gid(8), size(12), mtime(12), cksum(8),
    typeflag(1), linkname(100), magic+version(8), then the remaining
    uname/gname/dev/GNU fields, all zero (never set by this program). -/
def headerBytesWith (h : Header) (ck : List Nat) : List Nat :=
  fieldBytes 100 h.name ++ octalField 8 h.mode ++ octalField 8 h.uid ++
    octalField 8 h.gid ++ octalField 12 h.size ++ octalField 12 h.mtime ++
    fieldBytes 8 ck ++ [h.typeflag] ++ fieldBytes 100 h.linkname ++
    magicBytes ++ List.replicate 247 0

/-- Standard tar checksum: the sum of the 512 header bytes with the checksum
    field read as eight spaces. -/
def checksumOf (h : Header) : Nat := (headerBytesWith h (List.replicate 8 32)).sum

/-- Bytes of a header as emitted (checksum field holds the stored value). -/
def headerBytes (h : Header) : List Nat := headerBytesWith h (octalField 8 h.cksum)

/-- Model of `Header::set_cksum`. -/
def setCksum (h : Header) : Header := { h with cksum := checksumOf h }

/-- Entry type byte `'0'` (`EntryType::Regular`). -/
def typeRegular : Nat := 48

/-- Entry type byte `'5'` (`EntryType::Directory`). -/
def typeDirectory : Nat := 53

/-- Entry type byte `'2'` (`EntryType::Symlink`). -/
def typeSymlink : Nat := 50

/-- Entry type byte `'L'` (GNU long name marker). -/
def typeLongName : Nat := 76

/-- Entry type byte `'K'` (GNU long link marker). -/
def typeLongLink : Nat := 75

/-- Modelled from the spec: an entry path as handed to
    `tar::Header::set_path`.  The `tar` crate is an external dependency whose
    code is not under src/.  Per spec section 4.2 the direct set fails when the
    path "does not fit the 100-byte name field" (with the spec-recommended
    trigger `length >= 100`, section 9) "or otherwise cannot be set"; the flag
    `tarRejected` models the latter kind of rejection (for example tar's
    refusal of non-relative names), which is independent of the length. -/
structure EntryPath where
  bytes : List Nat
  tarRejected : Bool
deriving DecidableEq

/-- Modelled from the spec: `tar::Header::set_path` (external crate).  Fails
    exactly when the name is at least 100 bytes or is otherwise rejected;
    on success it stores the name. -/
def setPath (h : Header) (p : EntryPath) : Option Header :=
  if 100 ≤ p.bytes.length ∨ p.tarRejected = true then none
  else some { h with name := p.bytes }

/-- Modelled from the spec: `tar::Header::set_link_name` (external crate).
    Spec section 4.2 triggers the long-link fallback when the target "exceeds
    the legacy ~100-byte link-name field"; section 8 states the trigger as
    `length >= 100`.  Link names have no further rejection case. -/
def setLinkName (h : Header) (target : List Nat) : Option Header :=
  if 100 ≤ target.length then none
  else some { h with linkname := target }

/-- Metadata of a unixfs entry (`FileMetadata`): optional mode, optional
    mtime as (seconds, nanos) with possibly negative seconds. -/
structure FileMetadata where
  mode : Option Nat
  mtime : Option (Int × Nat)
deriving DecidableEq

/-- Error enum `GetError` (lines 232-238).  The payloads of `Walk` and
    `Loading` are external error types never inspected in this file. -/
inductive GetError where
  | nonUtf8Symlink
  | invalidFileName (bs : List Nat)
  | walk
  | loading
deriving DecidableEq

/-- State of `TarHelper` (line 276): buffer size and the two reusable header
    templates.  The two `BytesMut` buffers are always drained by `split()`
    before control returns to the caller, so each yielded chunk is exactly the
    bytes written since the previous split; chunks are therefore modelled
    directly and the buffers carry no state between calls. -/
structure TarHelper where
  bufsize : Nat
  header : Header
  longFilenameHeader : Header
deriving DecidableEq

/-- Shared 512-byte zero buffer (`with_buffer_sizes`, lines 293-298). -/
def zeroes : List Nat := List.replicate 512 0

/-- Model of `new_default_header` (lines 310-317): a fresh GNU header with
    mtime, uid and gid set to 0. -/
def newDefaultHeader : Header :=
  { name := [], mode := 0, uid := 0, gid := 0, size := 0, mtime := 0,
    typeflag := 0, linkname := [], cksum := 0 }

/-- Model of `new_long_filename_header` (lines 319-339): mode 0644, name
    `././@LongLink`, mtime, uid and gid 0. -/
def newLongFilenameHeader : Header :=
  { name := longLinkName, mode := 0o644, uid := 0, gid := 0, size := 0,
    mtime := 0, typeflag := 0, linkname := [], cksum := 0 }

/-- Model of `TarHelper::with_buffer_sizes`. -/
def withBufferSizes (n : Nat) : TarHelper :=
  { bufsize := n, header := newDefaultHeader,
    longFilenameHeader := newLongFilenameHeader }

/-- One yielded `Bytes` chunk.  A chunk produced from a header keeps the
    `Header` record; its bytes are `headerBytes`. -/
inductive Chunk where
  | hdr (h : Header)
  | raw (bs : List Nat)
deriving DecidableEq

/-- Bytes of a chunk as they appear on the wire. -/
def Chunk.toBytes : Chunk → List Nat
  | .hdr h => headerBytes h
  | .raw bs => bs

/-- Model of `TarHelper::pad` (lines 470-477). -/
def pad (totalSize : Nat) : Option (List Nat) :=
  let padding := 512 - totalSize % 512
  if padding < 512 then some (zeroes.take padding) else none

/-- Model of `TarHelper::set_metadata` (lines 479-487): mode masked with
    0o7777 else the default; mtime when present and non-negative else 0. -/
def setMetadata (h : Header) (metadata : FileMetadata) (defaultMode : Nat) : Header :=
  { h with
    mode := (metadata.mode.map (fun m => m &&& 0o7777)).getD defaultMode,
    mtime := (metadata.mtime.bind
      (fun sn => if 0 ≤ sn.1 then some sn.1.toNat else none)).getD 0 }

/-- Model of `prepare_long_header` (lines 491-555): called when the direct
    `set_path` failed.  Rejects names shorter than the 100-byte name field
    with `InvalidFileName`; otherwise prepares the long filename header as an
    `'L'` marker (size = name length + 1, fresh checksum) and sets the name
    field of the normal header to the first 100 bytes of the name. -/
def prepareLongHeader (header longFilenameHeader : Header) (p : EntryPath) :
    Except GetError (List Nat × Header × Header) :=
  let data := p.bytes
  let maxLen := (100 : Nat)
  if data.length < maxLen then
    Except.error (GetError.invalidFileName data)
  else
    let lfh := setCksum { longFilenameHeader with
      size := data.length + 1, typeflag := typeLongName }
    let hdr := { header with name := data.take maxLen }
    Except.ok (data, hdr, lfh)

/-- Common long-name fallback block (the `if let Err(_) = set_path` bodies of
    `apply_file` lines 344-357, `apply_directory` lines 388-401 and
    `apply_symlink` lines 419-432): returns the updated helper and the first
    three chunk slots (marker header, NUL-terminated name, padding). -/
def applyName (t : TarHelper) (p : EntryPath) :
    Except GetError (TarHelper × List (Option Chunk)) :=
  match setPath t.header p with
  | some h => Except.ok ({ t with header := h }, [none, none, none])
  | none =>
    match prepareLongHeader t.header t.longFilenameHeader p with
    | Except.error e => Except.error e
    | Except.ok (data, hdr, lfh) =>
      Except.ok ({ t with header := hdr, longFilenameHeader := lfh },
        [some (Chunk.hdr lfh), some (Chunk.raw (data ++ [0])),
         (pad (data.length + 1)).map Chunk.raw])

/-- Model of `TarHelper::apply_file` (lines 341-370). -/
def applyFile (t : TarHelper) (path : EntryPath) (metadata : FileMetadata)
    (totalSize : Nat) : Except GetError (List (Option Chunk) × TarHelper) :=
  match applyName t path with
  | Except.error e => Except.error e
  | Except.ok (t, pre) =>
    let h := setCksum (setMetadata
      { t.header with size := totalSize, typeflag := typeRegular } metadata 0o644)
    Except.ok (pre ++ [some (Chunk.hdr h)], { t with header := h })

/-- Model of `TarHelper::apply_directory` (lines 385-414). -/
def applyDirectory (t : TarHelper) (path : EntryPath) (metadata : FileMetadata) :
    Except GetError (List (Option Chunk) × TarHelper) :=
  match applyName t path with
  | Except.error e => Except.error e
  | Except.ok (t, pre) =>
    let h := setCksum (setMetadata
      { t.header with size := 0, typeflag := typeDirectory } metadata 0o755)
    Except.ok (pre ++ [some (Chunk.hdr h)], { t with header := h })

/-- Result of an operation that can also `panic!`. -/
inductive Out (α : Type) where
  | ok (a : α)
  | err (e : GetError)
  | panicked
deriving DecidableEq

/-- Model of `TarHelper::apply_symlink` (lines 416-468).  The `panic!` taken
    when `set_link_name` failed on a target shorter than the 100-byte
    linkname field (lines 437-440) is `Out.panicked`. -/
def applySymlink (t : TarHelper) (path : EntryPath) (target : List Nat)
    (metadata : FileMetadata) : Out (List (Option Chunk) × TarHelper) :=
  match applyName t path with
  | Except.error e => Out.err e
  | Except.ok (t, pre) =>
    let linkStep : Out (TarHelper × List (Option Chunk)) :=
      match setLinkName t.header target with
      | some h => Out.ok ({ t with header := h }, [none, none, none])
      | none =>
        if target.length < 100 then
          Out.panicked
        else
          let lfh := setCksum { t.longFilenameHeader with
            size := target.length + 1, typeflag := typeLongLink }
          Out.ok ({ t with longFilenameHeader := lfh },
            [some (Chunk.hdr lfh), some (Chunk.raw (target ++ [0])),
             (pad (target.length + 1)).map Chunk.raw])
    match linkStep with
    | Out.panicked => Out.panicked
    | Out.err e => Out.err e
    | Out.ok (t, mid) =>
      let h := setCksum { setMetadata t.header metadata 0o644 with
        size := 0, typeflag := typeSymlink }
      Out.ok (pre ++ mid ++ [some (Chunk.hdr h)], { t with header := h })

/-- Model of `TarHelper::buffer_file_contents` (lines 372-383): appends
    `min(bufsize, remaining)` bytes and flushes exactly one chunk. -/
def bufferFileContents (t : TarHelper) (contents : List Nat) : List Nat :=
  contents.take t.bufsize

/-- The `while n < total` content loop of `walk` (lines 175-183): repeated
    `buffer_file_contents` calls over the remaining suffix.  For
    `bufsize = 0` the source loop would never advance; the program only ever
    uses a 16 KiB bufsize, the guard merely makes the recursion total. -/
def chunkSegment (bufsize : Nat) : List Nat → List (List Nat)
  | [] => []
  | b :: rest =>
    if _hb : bufsize = 0 then []
    else (b :: rest).take bufsize :: chunkSegment bufsize ((b :: rest).drop bufsize)
termination_by slice => slice.length
decreasing_by
  simp only [List.length_drop, List.length_cons]
  omega

/-- One file segment delivered by the walker (`FileVisit` segment):
    its bytes and the first/last flags. -/
structure FileSegment where
  bytes : List Nat
  isFirst : Bool
  isLast : Bool
deriving DecidableEq

/-- One `ContinuedWalk` event of the walker (external collaborator).  The
    walker's contract supplies the total file size and metadata for files and
    symlinks; the source unwraps them with `expect`. -/
inductive ContinuedWalk where
  | file (segment : FileSegment) (totalSize : Nat) (path : EntryPath)
      (metadata : FileMetadata)
  | directory (path : EntryPath) (metadata : Option FileMetadata)
  | symlink (targetBytes : List Nat) (path : EntryPath) (metadata : FileMetadata)
deriving DecidableEq

/-- Continuation byte test for UTF-8 (`0x80..=0xBF`). -/
def isCont (b : Nat) : Bool := 128 ≤ b && b < 192

/-- UTF-8 validity of a byte sequence, as decided by `std::str::from_utf8`
    (no overlong forms, no surrogates, at most U+10FFFF). -/
def utf8Valid : List Nat → Bool
  | [] => true
  | b :: rest =>
    if b < 128 then utf8Valid rest
    else if b < 194 then false
    else if b < 224 then
      match rest with
      | b1 :: rest2 => isCont b1 && utf8Valid rest2
      | [] => false
    else if b < 240 then
      match rest with
      | b1 :: b2 :: rest2 =>
        (if b = 224 then 160 ≤ b1 && b1 < 192
         else if b = 237 then 128 ≤ b1 && b1 < 160
         else isCont b1) && (isCont b2 && utf8Valid rest2)
      | _ => false
    else if b < 245 then
      match rest with
      | b1 :: b2 :: b3 :: rest2 =>
        (if b = 240 then 144 ≤ b1 && b1 < 192
         else if b = 244 then 128 ≤ b1 && b1 < 144
         else isCont b1) && (isCont b2 && (isCont b3 && utf8Valid rest2))
      | _ => false
    else false

/-- One iteration of the `try_stream!` loop of `walk` (lines 151-225),
    handling a single `ContinuedWalk` event.  Block fetching and the walker
    itself are external; the loop body's chunk emission is modelled exactly:
    file headers only on the first segment, content in
    `buffer_file_contents`-sized pieces, pad only after the last segment,
    directory chunks only when metadata is attached, symlink target decoded
    as UTF-8 before any of its chunks are produced. -/
def stepWalk (t : TarHelper) : ContinuedWalk → Out (List Chunk × TarHelper)
  | ContinuedWalk.file segment totalSize path metadata =>
    let first : Except GetError (List Chunk × TarHelper) :=
      if segment.isFirst then
        match applyFile t path metadata totalSize with
        | Except.error e => Except.error e
        | Except.ok (slots, t2) => Except.ok (slots.filterMap id, t2)
      else Except.ok ([], t)
    match first with
    | Except.error e => Out.err e
    | Except.ok (cs, t2) =>
      let content := (chunkSegment t2.bufsize segment.bytes).map Chunk.raw
      let padTail :=
        if segment.isLast then (pad totalSize).toList.map Chunk.raw else []
      Out.ok (cs ++ content ++ padTail, t2)
  | ContinuedWalk.directory path metadata =>
    match metadata with
    | none => Out.ok ([], t)
    | some metadata =>
      match applyDirectory t path metadata with
      | Except.error e => Out.err e
      | Except.ok (slots, t2) => Out.ok (slots.filterMap id, t2)
  | ContinuedWalk.symlink targetBytes path metadata =>
    if utf8Valid targetBytes then
      match applySymlink t path targetBytes metadata with
      | Out.err e => Out.err e
      | Out.panicked => Out.panicked
      | Out.ok (slots, t2) => Out.ok (slots.filterMap id, t2)
    else Out.err GetError.nonUtf8Symlink

/-- How the stream ended. -/
inductive StreamEnd where
  | done
  | failed (e : GetError)
  | panicked
deriving DecidableEq

/-- The stream produced over a sequence of walk events: all yielded chunks in
    order, plus how the stream ended.  On failure the chunks already yielded
    stand (truncation, not retraction); the failing event itself contributes
    no chunks, matching the yield points of the source loop. -/
def runWalk (t : TarHelper) : List ContinuedWalk → List Chunk × StreamEnd
  | [] => ([], StreamEnd.done)
  | ev :: rest =>
    match stepWalk t ev with
    | Out.err e => ([], StreamEnd.failed e)
    | Out.panicked => ([], StreamEnd.panicked)
    | Out.ok (cs, t2) =>
      let r := runWalk t2 rest
      (cs ++ r.1, r.2)

/-- The helper as constructed by `walk` (line 108): 16 KiB buffers. -/
def initHelper : TarHelper := withBufferSizes (16 * 1024)

/-- Codec of a resolved root cid.  Only `DagProtobuf` (unixfs) is accepted;
    the other constructors stand for every other codec. -/
inductive Codec where
  | dagProtobuf
  | dagCbor
  | raw
deriving DecidableEq

/-- Structured error responses of the two handlers that matter here.  The
    source uses `StringError`; `unknownNodeType` is `"unknown node type"`. -/
inductive ApiError where
  | unknownNodeType
deriving DecidableEq

/-- Result of `cat_inner` up to the point the byte stream starts. -/
inductive CatResult where
  | todoPanic
  | err (e : ApiError)
  | stream (range : Option (Nat × Nat))
deriving DecidableEq

/-- The codec check of `cat_inner` (lines 55-57), reached after the range
    was computed: a non-DagProtobuf root fails with "unknown node type"
    before any stream byte; otherwise the unixfs cat stream over the
    half-open range starts (its body is external). -/
def catChecked (codec : Codec) (range : Option (Nat × Nat)) : CatResult :=
  if codec ≠ Codec.dagProtobuf then CatResult.err ApiError.unknownNodeType
  else CatResult.stream range

/-- Model of `cat_inner` after path resolution: the range computation of
    lines 44-49 (with the `todo!` branch for offset-without-length) followed
    by the codec check.  `offset` and `length` are `u64` query parameters;
    the end of the range is the `u64` sum `start + len` (line 45), which
    wraps modulo `2 ^ 64` on overflow. -/
def catInner (codec : Codec) (offset length : Option Nat) : CatResult :=
  match offset, length with
  | some start, some len => catChecked codec (some (start, (start + len) % 2 ^ 64))
  | some _, none => CatResult.todoPanic
  | none, some len => catChecked codec (some (0, len))
  | none, none => catChecked codec none

/-- Result of `get_inner` up to the point the tar stream starts. -/
inductive GetResult where
  | err (e : ApiError)
  | stream
deriving DecidableEq

/-- Model of `get_inner` after path resolution: the codec check of lines
    97-99; a DagProtobuf root starts the `walk` stream. -/
def getInner (codec : Codec) : GetResult :=
  if codec ≠ Codec.dagProtobuf then GetResult.err ApiError.unknownNodeType
  else GetResult.stream

/-- Owner fields of a header are zero. -/
def ownerZero (h : Header) : Prop := h.uid = 0 ∧ h.gid = 0

/-- Invariant of the helper state: both reusable templates have zero owner
    fields (established at construction, never touched afterwards). -/
def tarInv (t : TarHelper) : Prop :=
  ownerZero t.header ∧ ownerZero t.longFilenameHeader

/-- The emitted-header invariant of the spec: uid 0, gid 0, and a checksum
    that matches recomputation over the header bytes with the checksum field
    read as spaces. -/
def goodHeader (h : Header) : Prop :=
  h.uid = 0 ∧ h.gid = 0 ∧ h.cksum = checksumOf h

end RootFiles

namespace RootFiles

/-! Helper lemmas (shared; claim theorems never depend on one another). -/

theorem chunkSegment_nil (b : Nat) : chunkSegment b [] = [] := by
  simp [chunkSegment]

theorem chunkSegment_cons (b x : Nat) (rest : List Nat) (hb : b ≠ 0) :
    chunkSegment b (x :: rest)
      = (x :: rest).take b :: chunkSegment b ((x :: rest).drop b) := by
  rw [chunkSegment]
  simp [hb]

theorem chunkSegment_flatten_len (b : Nat) (hb : 0 < b) :
    ∀ (n : Nat) (slice : List Nat), slice.length ≤ n →
      (chunkSegment b slice).flatten = slice := by
  intro n
  induction n with
  | zero =>
    intro slice hlen
    have hnil : slice = [] := List.length_eq_zero.mp (Nat.le_zero.mp hlen)
    subst hnil
    simp [chunkSegment_nil]
  | succ n ih =>
    intro slice hlen
    cases slice with
    | nil => simp [chunkSegment_nil]
    | cons x rest =>
      rw [chunkSegment_cons b x rest (by omega), List.flatten_cons,
        ih ((x :: rest).drop b)
          (by simp only [List.length_drop, List.length_cons]
              simp only [List.length_cons] at hlen
              omega)]
      exact List.take_append_drop b (x :: rest)

theorem chunkSegment_flatten (b : Nat) (hb : 0 < b) (slice : List Nat) :
    (chunkSegment b slice).flatten = slice :=
  chunkSegment_flatten_len b hb slice.length slice le_rfl

theorem chunkSegment_mem_len (b : Nat) (hb : 0 < b) :
    ∀ (n : Nat) (slice : List Nat), slice.length ≤ n →
      ∀ c ∈ chunkSegment b slice, c ≠ [] ∧ c.length ≤ b := by
  intro n
  induction n with
  | zero =>
    intro slice hlen
    have hnil : slice = [] := List.length_eq_zero.mp (Nat.le_zero.mp hlen)
    subst hnil
    simp [chunkSegment_nil]
  | succ n ih =>
    intro slice hlen
    cases slice with
    | nil => simp [chunkSegment_nil]
    | cons x rest =>
      rw [chunkSegment_cons b x rest (by omega)]
      intro c hc
      rcases List.mem_cons.mp hc with hhead | htail
      · subst hhead
        constructor
        · have hpos : 0 < ((x :: rest).take b).length := by
            simp [List.length_take]
            omega
          exact List.length_pos.mp hpos
        · simp [List.length_take]
      · exact ih ((x :: rest).drop b)
          (by simp only [List.length_drop, List.length_cons]
              simp only [List.length_cons] at hlen
              omega) c htail

theorem chunkSegment_mem (b : Nat) (hb : 0 < b) (slice : List Nat) :
    ∀ c ∈ chunkSegment b slice, c ≠ [] ∧ c.length ≤ b :=
  chunkSegment_mem_len b hb slice.length slice le_rfl

/-- CLAIM C2: for every total size S, `pad S` returns exactly
    `512 - (S mod 512)` zero bytes when `S mod 512` is non-zero and no chunk
    when `S mod 512 = 0`; a returned pad chunk is never empty and never 512
    bytes long. -/
theorem c2_pad_length (S : Nat) :
    (S % 512 ≠ 0 → pad S = some (List.replicate (512 - S % 512) 0)) ∧
    (S % 512 = 0 → pad S = none) ∧
    (∀ c, pad S = some c → c ≠ [] ∧ c.length ≠ 512) := by
  have hlt : S % 512 < 512 := Nat.mod_lt _ (by omega)
  refine ⟨?_, ?_, ?_⟩
  · intro h
    simp only [pad, zeroes]
    rw [if_pos (by omega), List.take_replicate, Nat.min_eq_left (by omega)]
  · intro h
    simp only [pad]
    rw [if_neg (by omega)]
  · intro c hc
    simp only [pad, zeroes] at hc
    by_cases hcond : 512 - S % 512 < 512
    · rw [if_pos hcond, List.take_replicate] at hc
      obtain rfl : List.replicate (min (512 - S % 512) 512) 0 = c := Option.some.inj hc
      constructor
      · refine List.length_pos.mp ?_
        simp only [List.length_replicate]
        omega
      · simp only [List.length_replicate]
        omega
    · rw [if_neg hcond] at hc
      cases hc

theorem c2_pad_length_witness :
    pad 700 = some (List.replicate 324 0) ∧ pad 1024 = none :=
  ⟨(c2_pad_length 700).1 (by decide), (c2_pad_length 1024).2.1 (by decide)⟩

/-- CLAIM C9: a directory visitation event that carries no metadata emits no
    chunk at all and leaves the helper state unchanged; the stream continues
    as if the event had not happened. -/
theorem c9_directory_revisit_silent (t : TarHelper) (p : EntryPath) :
    stepWalk t (ContinuedWalk.directory p none) = Out.ok ([], t) ∧
    ∀ rest : List ContinuedWalk,
      runWalk t (ContinuedWalk.directory p none :: rest) = runWalk t rest := by
  refine ⟨rfl, ?_⟩
  intro rest
  simp [runWalk, stepWalk]

/-- CLAIM C10 counterexample: an offset-with-length request whose `u64` sum
    overflows does not yield the half-open range `[offset, offset + length)`:
    at offset `2 ^ 64 - 1` and length 2 the end of the range is the wrapped
    sum 1, not `offset + length`. -/
theorem c10_cat_range_counterexample :
    catInner Codec.dagProtobuf (some (2 ^ 64 - 1)) (some 2)
      = CatResult.stream (some (2 ^ 64 - 1, 1)) ∧
    catInner Codec.dagProtobuf (some (2 ^ 64 - 1)) (some 2)
      ≠ CatResult.stream (some (2 ^ 64 - 1, 2 ^ 64 - 1 + 2)) := by
  exact ⟨by decide, by decide⟩

/-- CLAIM C10 (amended): a ranged-extraction request with an offset but no
    length reaches the `todo!` branch and panics (no stream, no structured
    error), for every codec; offset with length yields the half-open range
    whose end is the `u64` sum `offset + length` wrapped modulo `2 ^ 64` —
    equal to `[offset, offset + length)` exactly when that sum does not
    overflow — and length without offset yields `[0, length)`. -/
theorem c10_cat_range_todo (codec : Codec) (s l : Nat) :
    catInner codec (some s) none = CatResult.todoPanic ∧
    catInner Codec.dagProtobuf (some s) (some l)
      = CatResult.stream (some (s, (s + l) % 2 ^ 64)) ∧
    (s + l < 2 ^ 64 →
      catInner Codec.dagProtobuf (some s) (some l)
        = CatResult.stream (some (s, s + l))) ∧
    catInner Codec.dagProtobuf none (some l) = CatResult.stream (some (0, l)) := by
  refine ⟨rfl, ?_, ?_, ?_⟩
  · simp [catInner, catChecked]
  · intro hlt
    simp [catInner, catChecked, Nat.mod_eq_of_lt hlt]
    exact hlt
  · simp [catInner, catChecked]

theorem c10_cat_range_todo_witness :
    catInner Codec.raw (some 5) none = CatResult.todoPanic ∧
    catInner Codec.dagProtobuf (some 3) (some 4)
      = CatResult.stream (some (3, (3 + 4) % 2 ^ 64)) ∧
    catInner Codec.dagProtobuf (some 3) (some 4)
      = CatResult.stream (some (3, 3 + 4)) ∧
    catInner Codec.dagProtobuf none (some 4) = CatResult.stream (some (0, 4)) :=
  ⟨(c10_cat_range_todo Codec.raw 5 0).1,
   (c10_cat_range_todo Codec.dagProtobuf 3 4).2.1,
   (c10_cat_range_todo Codec.dagProtobuf 3 4).2.2.1 (by decide),
   (c10_cat_range_todo Codec.dagProtobuf 3 4).2.2.2⟩

/-- CLAIM C7 counterexample: a root whose codec is not DagProtobuf does not
    always produce the structured "unknown node type" error from the ranged
    extraction: with an offset and no length the `todo!` branch panics before
    the codec check. -/
theorem c7_counterexample :
    catInner Codec.raw (some 0) none = CatResult.todoPanic ∧
    catInner Codec.raw (some 0) none ≠ CatResult.err ApiError.unknownNodeType := by
  exact ⟨rfl, by decide⟩

/-- CLAIM C7 (amended): for every root codec other than DagProtobuf, the
    archive export fails with "unknown node type" before any byte, and so
    does the ranged extraction for every argument shape except
    offset-without-length, which hits the unimplemented range branch and
    panics before the codec check. -/
theorem c7_unknown_node_type (codec : Codec) (hne : codec ≠ Codec.dagProtobuf) :
    getInner codec = GetResult.err ApiError.unknownNodeType ∧
    (∀ s l : Nat, catInner codec (some s) (some l)
        = CatResult.err ApiError.unknownNodeType) ∧
    (∀ l : Nat, catInner codec none (some l)
        = CatResult.err ApiError.unknownNodeType) ∧
    catInner codec none none = CatResult.err ApiError.unknownNodeType ∧
    (∀ s : Nat, catInner codec (some s) none = CatResult.todoPanic) := by
  refine ⟨?_, ?_, ?_, ?_, ?_⟩ <;> simp [getInner, catInner, catChecked, hne]

theorem c7_unknown_node_type_witness :
    getInner Codec.raw = GetResult.err ApiError.unknownNodeType ∧
    (∀ s l : Nat, catInner Codec.raw (some s) (some l)
        = CatResult.err ApiError.unknownNodeType) ∧
    (∀ l : Nat, catInner Codec.raw none (some l)
        = CatResult.err ApiError.unknownNodeType) ∧
    catInner Codec.raw none none = CatResult.err ApiError.unknownNodeType ∧
    (∀ s : Nat, catInner Codec.raw (some s) none = CatResult.todoPanic) :=
  c7_unknown_node_type Codec.raw (by decide)


theorem pad_eq_none_iff (n : Nat) : pad n = none ↔ n % 512 = 0 := by
  have hlt : n % 512 < 512 := Nat.mod_lt _ (by omega)
  simp only [pad]
  constructor
  · intro h
    by_contra hne
    rw [if_pos (by omega)] at h
    cases h
  · intro h
    rw [if_neg (by omega)]

theorem pad_eq_some_replicate (n : Nat) (z : List Nat) (h : pad n = some z) :
    z = List.replicate (512 - n % 512) 0 := by
  simp only [pad, zeroes] at h
  by_cases hc : 512 - n % 512 < 512
  · rw [if_pos hc, List.take_replicate, Nat.min_eq_left (by omega)] at h
    exact (Option.some.inj h).symm
  · rw [if_neg hc] at h
    cases h

/-- CLAIM C1: every non-empty file segment is consumed by repeated
    `buffer_file_contents` calls as a sequence of non-empty chunks of at most
    the 16 KiB bufsize, the head chunk taking exactly min(bufsize, remaining)
    bytes and the rest recursing on the remaining suffix, whose concatenation
    is exactly the segment; across all segments of a file the content chunks
    concatenate to exactly the file's bytes, and a non-first file-segment
    event contributes exactly its content chunks followed by the pad only
    when the segment is the last one. -/
theorem c1_content_chunking (slice : List Nat) (hne : slice ≠ [])
    (segs : List (List Nat)) (t : TarHelper) (seg : FileSegment) (ts : Nat)
    (p : EntryPath) (md : FileMetadata) (hfirst : seg.isFirst = false) :
    (∀ c ∈ chunkSegment (16 * 1024) slice, c ≠ [] ∧ c.length ≤ 16 * 1024) ∧
    (chunkSegment (16 * 1024) slice).flatten = slice ∧
    chunkSegment (16 * 1024) slice
      = slice.take (16 * 1024) :: chunkSegment (16 * 1024) (slice.drop (16 * 1024)) ∧
    (slice.take (16 * 1024)).length = min (16 * 1024) slice.length ∧
    ((segs.map fun s => (chunkSegment (16 * 1024) s).flatten).flatten
      = segs.flatten) ∧
    stepWalk t (ContinuedWalk.file seg ts p md)
      = Out.ok ((chunkSegment t.bufsize seg.bytes).map Chunk.raw
          ++ (if seg.isLast then (pad ts).toList.map Chunk.raw else []), t) := by
  refine ⟨chunkSegment_mem (16 * 1024) (by omega) slice,
    chunkSegment_flatten (16 * 1024) (by omega) slice, ?_, ?_, ?_, ?_⟩
  · cases slice with
    | nil => exact absurd rfl hne
    | cons x rest => exact chunkSegment_cons (16 * 1024) x rest (by omega)
  · simp [List.length_take]
  · induction segs with
    | nil => simp
    | cons s ss ih =>
      simp only [List.map_cons, List.flatten_cons, ih,
        chunkSegment_flatten (16 * 1024) (by omega) s]
  · simp [stepWalk, hfirst]

theorem c1_content_chunking_witness :
    (∀ c ∈ chunkSegment (16 * 1024) [1, 2, 3], c ≠ [] ∧ c.length ≤ 16 * 1024) ∧
    (chunkSegment (16 * 1024) [1, 2, 3]).flatten = [1, 2, 3] ∧
    chunkSegment (16 * 1024) [1, 2, 3]
      = [1, 2, 3].take (16 * 1024)
        :: chunkSegment (16 * 1024) ([1, 2, 3].drop (16 * 1024)) ∧
    ([1, 2, 3].take (16 * 1024)).length = min (16 * 1024) [1, 2, 3].length ∧
    ((([[1], [2, 3]] : List (List Nat)).map
        fun s => (chunkSegment (16 * 1024) s).flatten).flatten
      = ([[1], [2, 3]] : List (List Nat)).flatten) ∧
    stepWalk initHelper
        (ContinuedWalk.file ⟨[5], false, false⟩ 10 ⟨[97], false⟩ ⟨none, none⟩)
      = Out.ok ((chunkSegment initHelper.bufsize
            (FileSegment.mk [5] false false).bytes).map Chunk.raw
          ++ (if (FileSegment.mk [5] false false).isLast
              then (pad 10).toList.map Chunk.raw else []), initHelper) :=
  c1_content_chunking [1, 2, 3] (by decide) [[1], [2, 3]] initHelper
    ⟨[5], false, false⟩ 10 ⟨[97], false⟩ ⟨none, none⟩ rfl

/-- CLAIM C3: for every entry path of at least 100 bytes, `apply_file` emits
    the `././@LongLink` marker header (type `'L'`, size = path length + 1),
    then the full path bytes followed by a NUL, then zero padding to the next
    512-byte boundary (absent exactly when path length + 1 is a multiple of
    512), then the normal header whose name field is the path truncated to
    its first 100 bytes. -/
theorem c3_long_name (t : TarHelper) (p : EntryPath) (md : FileMetadata)
    (ts : Nat) (hname : t.longFilenameHeader.name = longLinkName)
    (hlen : 100 ≤ p.bytes.length) :
    ∃ mh fh t2,
      applyFile t p md ts = Except.ok
        ([some (Chunk.hdr mh), some (Chunk.raw (p.bytes ++ [0])),
          (pad (p.bytes.length + 1)).map Chunk.raw, some (Chunk.hdr fh)], t2) ∧
      mh.name = longLinkName ∧ mh.typeflag = typeLongName ∧
      mh.size = p.bytes.length + 1 ∧
      fh.name = p.bytes.take 100 ∧
      ((p.bytes.length + 1) % 512 = 0 ↔
        (pad (p.bytes.length + 1)).map Chunk.raw = none) ∧
      (∀ z, pad (p.bytes.length + 1) = some z
        → z = List.replicate (512 - (p.bytes.length + 1) % 512) 0) := by
  have hsp : setPath t.header p = none := by
    simp only [setPath]
    rw [if_pos (Or.inl hlen)]
  have hpl : prepareLongHeader t.header t.longFilenameHeader p
      = Except.ok (p.bytes,
          { t.header with name := p.bytes.take 100 },
          setCksum
            { t.longFilenameHeader with
              size := p.bytes.length + 1, typeflag := typeLongName }) := by
    simp only [prepareLongHeader]
    rw [if_neg (by omega)]
  refine ⟨setCksum
      { t.longFilenameHeader with
        size := p.bytes.length + 1, typeflag := typeLongName },
    setCksum (setMetadata
      { t.header with
        name := p.bytes.take 100, size := ts, typeflag := typeRegular } md 0o644),
    ?_, ?_, ?_, ?_, ?_, ?_, ?_, ?_⟩
  · exact { t with
      header := setCksum (setMetadata
        { t.header with
          name := p.bytes.take 100, size := ts, typeflag := typeRegular } md 0o644),
      longFilenameHeader := setCksum
        { t.longFilenameHeader with
          size := p.bytes.length + 1, typeflag := typeLongName } }
  · simp only [applyFile, applyName, hsp, hpl, List.cons_append, List.nil_append]
  · simp only [setCksum]
    exact hname
  · rfl
  · rfl
  · rfl
  · rw [Option.map_eq_none']
    exact (pad_eq_none_iff (p.bytes.length + 1)).symm
  · intro z hz
    exact pad_eq_some_replicate _ z hz

theorem c3_long_name_witness :
    ∃ mh fh t2,
      applyFile initHelper ⟨List.replicate 100 97, false⟩ ⟨none, none⟩ 7
        = Except.ok
        ([some (Chunk.hdr mh),
          some (Chunk.raw (List.replicate 100 97 ++ [0])),
          (pad ((List.replicate 100 97).length + 1)).map Chunk.raw,
          some (Chunk.hdr fh)], t2) ∧
      mh.name = longLinkName ∧ mh.typeflag = typeLongName ∧
      mh.size = (List.replicate 100 97).length + 1 ∧
      fh.name = (List.replicate 100 97).take 100 ∧
      (((List.replicate 100 97).length + 1) % 512 = 0 ↔
        (pad ((List.replicate 100 97).length + 1)).map Chunk.raw = none) ∧
      (∀ z, pad ((List.replicate 100 97).length + 1) = some z
        → z = List.replicate (512 - ((List.replicate 100 97).length + 1) % 512) 0) :=
  c3_long_name initHelper ⟨List.replicate 100 97, false⟩ ⟨none, none⟩ 7 rfl
    (by simp)


theorem land_07777 (m : Nat) : m &&& 0o7777 = m % 2 ^ 12 := by
  have h : (0o7777 : Nat) = 2 ^ 12 - 1 := by norm_num
  rw [h, Nat.and_pow_two_sub_one_eq_mod]

theorem checksumOf_setCksum (h : Header) :
    checksumOf (setCksum h) = checksumOf h := rfl

theorem finalHeader_facts (X : Header) (md : FileMetadata) (dm : Nat) :
    (setCksum (setMetadata X md dm)).size = X.size ∧
    (setCksum (setMetadata X md dm)).typeflag = X.typeflag ∧
    (setCksum (setMetadata X md dm)).mode
      = (match md.mode with | some m => m % 2 ^ 12 | none => dm) ∧
    (setCksum (setMetadata X md dm)).mtime
      = (match md.mtime with
         | some sn => if 0 ≤ sn.1 then sn.1.toNat else 0
         | none => 0) ∧
    (setCksum (setMetadata X md dm)).cksum
      = checksumOf (setCksum (setMetadata X md dm)) := by
  refine ⟨rfl, rfl, ?_, ?_, rfl⟩
  · cases hm : md.mode with
    | none => simp [setCksum, setMetadata, hm]
    | some m => simp [setCksum, setMetadata, hm, land_07777]
  · cases hm : md.mtime with
    | none => simp [setCksum, setMetadata, hm]
    | some sn =>
      by_cases h0 : 0 ≤ sn.1
      · simp [setCksum, setMetadata, hm, h0]
      · simp [setCksum, setMetadata, hm, h0]

theorem setLinkName_none_ge (tgt : List Nat) (h : Header)
    (hn : setLinkName h tgt = none) : 100 ≤ tgt.length := by
  by_cases hc : 100 ≤ tgt.length
  · exact hc
  · simp only [setLinkName] at hn
    rw [if_neg hc] at hn
    cases hn

/-- CLAIM C4: a path whose direct header set fails although its byte length
    is below the 100-byte name field is rejected with `InvalidFileName` by
    `apply_file`, `apply_directory` and `apply_symlink` alike, and the stream
    terminates on that error with no bytes for the failing event; for a
    symlink target the analogous precondition is unsatisfiable (the direct
    link-name set only fails on targets of at least the field width), so the
    target case holds vacuously (the code's branch there is unreachable). -/
theorem c4_invalid_file_name (t : TarHelper) (p : EntryPath) (md : FileMetadata)
    (ts : Nat) (target : List Nat) (rest : List ContinuedWalk)
    (hfail : setPath t.header p = none) (hshort : p.bytes.length < 100) :
    applyFile t p md ts = Except.error (GetError.invalidFileName p.bytes) ∧
    applyDirectory t p md = Except.error (GetError.invalidFileName p.bytes) ∧
    applySymlink t p target md = Out.err (GetError.invalidFileName p.bytes) ∧
    runWalk t (ContinuedWalk.directory p (some md) :: rest)
      = ([], StreamEnd.failed (GetError.invalidFileName p.bytes)) ∧
    (∀ tgt : List Nat, ¬(setLinkName t.header tgt = none ∧ tgt.length < 100)) := by
  have hpl : prepareLongHeader t.header t.longFilenameHeader p
      = Except.error (GetError.invalidFileName p.bytes) := by
    simp only [prepareLongHeader]
    rw [if_pos hshort]
  have han : applyName t p
      = Except.error (GetError.invalidFileName p.bytes) := by
    simp only [applyName, hfail, hpl]
  refine ⟨?_, ?_, ?_, ?_, ?_⟩
  · simp only [applyFile, han]
  · simp only [applyDirectory, han]
  · simp only [applySymlink, han]
  · simp only [runWalk, stepWalk, applyDirectory, han]
  · intro tgt hcontr
    have := setLinkName_none_ge tgt t.header hcontr.1
    omega

theorem c4_invalid_file_name_witness :
    applyFile initHelper ⟨[46, 46], true⟩ ⟨none, none⟩ 3
      = Except.error (GetError.invalidFileName [46, 46]) ∧
    applyDirectory initHelper ⟨[46, 46], true⟩ ⟨none, none⟩
      = Except.error (GetError.invalidFileName [46, 46]) ∧
    applySymlink initHelper ⟨[46, 46], true⟩ [98] ⟨none, none⟩
      = Out.err (GetError.invalidFileName [46, 46]) ∧
    runWalk initHelper (ContinuedWalk.directory ⟨[46, 46], true⟩ (some ⟨none, none⟩) :: [])
      = ([], StreamEnd.failed (GetError.invalidFileName [46, 46])) ∧
    (∀ tgt : List Nat,
      ¬(setLinkName initHelper.header tgt = none ∧ tgt.length < 100)) :=
  c4_invalid_file_name initHelper ⟨[46, 46], true⟩ ⟨none, none⟩ 3 [98] []
    (by decide) (by decide)

/-- CLAIM C5: whenever `apply_file` succeeds, its final chunk is a header
    with size equal to the event total size, Regular entry type, mode equal
    to the metadata mode masked to the low 12 bits (0644 when absent), mtime
    equal to the metadata mtime clamped at 0 for negative values (0 when
    absent), and a checksum that equals recomputation over the header. -/
theorem c5_final_file_header (t : TarHelper) (p : EntryPath)
    (md : FileMetadata) (ts : Nat)
    (hok : setPath t.header p ≠ none ∨ 100 ≤ p.bytes.length) :
    ∃ slots t2 h,
      applyFile t p md ts = Except.ok (slots, t2) ∧
      slots.getLast? = some (some (Chunk.hdr h)) ∧
      h.size = ts ∧ h.typeflag = typeRegular ∧
      h.mode = (match md.mode with | some m => m % 2 ^ 12 | none => 0o644) ∧
      h.mtime = (match md.mtime with
        | some sn => if 0 ≤ sn.1 then sn.1.toNat else 0
        | none => 0) ∧
      h.cksum = checksumOf h := by
  cases hsp : setPath t.header p with
  | some h1 =>
    refine ⟨[none, none, none, some (Chunk.hdr (setCksum (setMetadata
        { h1 with size := ts, typeflag := typeRegular } md 0o644)))],
      { t with header := setCksum (setMetadata
        { h1 with size := ts, typeflag := typeRegular } md 0o644) },
      setCksum (setMetadata
        { h1 with size := ts, typeflag := typeRegular } md 0o644),
      ?_, rfl, ?_⟩
    · simp only [applyFile, applyName, hsp, List.cons_append, List.nil_append]
    · exact finalHeader_facts { h1 with size := ts, typeflag := typeRegular } md 0o644
  | none =>
    have hlen : 100 ≤ p.bytes.length := by
      cases hok with
      | inl hne => exact absurd hsp hne
      | inr hge => exact hge
    have hpl : prepareLongHeader t.header t.longFilenameHeader p
        = Except.ok (p.bytes,
            { t.header with name := p.bytes.take 100 },
            setCksum
              { t.longFilenameHeader with
                size := p.bytes.length + 1, typeflag := typeLongName }) := by
      simp only [prepareLongHeader]
      rw [if_neg (by omega)]
    refine ⟨[some (Chunk.hdr (setCksum
        { t.longFilenameHeader with
          size := p.bytes.length + 1, typeflag := typeLongName })),
      some (Chunk.raw (p.bytes ++ [0])),
      (pad (p.bytes.length + 1)).map Chunk.raw,
      some (Chunk.hdr (setCksum (setMetadata
        { t.header with
          name := p.bytes.take 100, size := ts, typeflag := typeRegular }
        md 0o644)))],
      ?_, setCksum (setMetadata
        { t.header with
          name := p.bytes.take 100, size := ts, typeflag := typeRegular }
        md 0o644), ?_, rfl, ?_⟩
    · exact { t with
        header := setCksum (setMetadata
          { t.header with
            name := p.bytes.take 100, size := ts, typeflag := typeRegular }
          md 0o644),
        longFilenameHeader := setCksum
          { t.longFilenameHeader with
            size := p.bytes.length + 1, typeflag := typeLongName } }
    · simp only [applyFile, applyName, hsp, hpl, List.cons_append, List.nil_append]
    · exact finalHeader_facts
        { t.header with
          name := p.bytes.take 100, size := ts, typeflag := typeRegular }
        md 0o644

theorem c5_final_file_header_witness :
    ∃ slots t2 h,
      applyFile initHelper ⟨[97], false⟩ ⟨some 6543, some (-5, 0)⟩ 4
        = Except.ok (slots, t2) ∧
      slots.getLast? = some (some (Chunk.hdr h)) ∧
      h.size = 4 ∧ h.typeflag = typeRegular ∧
      h.mode = (match (some 6543 : Option Nat) with
        | some m => m % 2 ^ 12
        | none => 0o644) ∧
      h.mtime = (match (some ((-5 : Int), (0 : Nat)) : Option (Int × Nat)) with
        | some sn => if 0 ≤ sn.1 then sn.1.toNat else 0
        | none => 0) ∧
      h.cksum = checksumOf h :=
  c5_final_file_header initHelper ⟨[97], false⟩ ⟨some 6543, some (-5, 0)⟩ 4
    (Or.inl (by decide))


theorem prepareLongHeader_error (h1 h2 : Header) (p : EntryPath) (e : GetError)
    (h : prepareLongHeader h1 h2 p = Except.error e) :
    e = GetError.invalidFileName p.bytes := by
  simp only [prepareLongHeader] at h
  by_cases hl : p.bytes.length < 100
  · rw [if_pos hl] at h
    exact (Except.error.inj h).symm
  · rw [if_neg hl] at h
    cases h

theorem applyName_error (t : TarHelper) (p : EntryPath) (e : GetError)
    (h : applyName t p = Except.error e) :
    e = GetError.invalidFileName p.bytes := by
  unfold applyName at h
  split at h
  · cases h
  · split at h
    · rename_i e2 heq
      cases h
      exact prepareLongHeader_error _ _ _ _ heq
    · cases h

theorem applySymlink_no_utf8_err (t : TarHelper) (p : EntryPath)
    (target : List Nat) (md : FileMetadata) :
    applySymlink t p target md ≠ Out.err GetError.nonUtf8Symlink := by
  intro h
  unfold applySymlink at h
  cases han : applyName t p with
  | error e =>
    rw [han, applyName_error t p e han] at h
    simp at h
  | ok pr =>
    obtain ⟨t3, pre⟩ := pr
    rw [han] at h
    simp only at h
    cases hsl : setLinkName t3.header target with
    | some h2 =>
      rw [hsl] at h
      simp at h
    | none =>
      rw [hsl] at h
      simp only at h
      by_cases hlt : target.length < 100
      · rw [if_pos hlt] at h
        simp at h
      · rw [if_neg hlt] at h
        simp at h

/-- CLAIM C8: a symlink visitation event whose target bytes are not valid
    UTF-8 terminates the stream with `NonUtf8Symlink` and contributes no
    chunk; an event with valid UTF-8 target bytes never produces that
    error. -/
theorem c8_non_utf8_symlink (t : TarHelper) (p : EntryPath)
    (target : List Nat) (md : FileMetadata) (rest : List ContinuedWalk) :
    (utf8Valid target = false →
      stepWalk t (ContinuedWalk.symlink target p md)
        = Out.err GetError.nonUtf8Symlink ∧
      runWalk t (ContinuedWalk.symlink target p md :: rest)
        = ([], StreamEnd.failed GetError.nonUtf8Symlink)) ∧
    (utf8Valid target = true →
      stepWalk t (ContinuedWalk.symlink target p md)
        ≠ Out.err GetError.nonUtf8Symlink) := by
  constructor
  · intro hf
    refine ⟨?_, ?_⟩
    · simp [stepWalk, hf]
    · simp [runWalk, stepWalk, hf]
  · intro ht hcontra
    simp only [stepWalk, ht, if_true] at hcontra
    split at hcontra
    · rename_i e heq
      cases hcontra
      exact applySymlink_no_utf8_err t p target md heq
    · cases hcontra
    · cases hcontra

theorem c8_non_utf8_symlink_witness :
    stepWalk initHelper (ContinuedWalk.symlink [255] ⟨[97], false⟩ ⟨none, none⟩)
      = Out.err GetError.nonUtf8Symlink ∧
    stepWalk initHelper (ContinuedWalk.symlink [104] ⟨[97], false⟩ ⟨none, none⟩)
      ≠ Out.err GetError.nonUtf8Symlink :=
  ⟨((c8_non_utf8_symlink initHelper ⟨[97], false⟩ [255] ⟨none, none⟩ []).1
      (by decide)).1,
   (c8_non_utf8_symlink initHelper ⟨[97], false⟩ [104] ⟨none, none⟩ []).2
      (by decide)⟩


theorem octalField_length (w n : Nat) : (octalField w n).length = max w 1 := by
  simp only [octalField, List.length_append, List.length_map, List.length_reverse,
    List.length_take, List.length_replicate, List.length_cons, List.length_nil]
  omega

theorem fieldBytes_length (w : Nat) (bs : List Nat) : (fieldBytes w bs).length = w := by
  simp only [fieldBytes, List.length_append, List.length_take, List.length_replicate]
  omega

theorem headerBytes_length (h : Header) : (headerBytes h).length = 512 := by
  simp only [headerBytes, headerBytesWith, magicBytes, List.length_append,
    fieldBytes_length, octalField_length, List.length_cons, List.length_nil,
    List.length_replicate]
  omega

theorem goodHeader_setCksum (h : Header) (hz1 : h.uid = 0) (hz2 : h.gid = 0) :
    goodHeader (setCksum h) := ⟨hz1, hz2, rfl⟩

theorem setPath_some (h : Header) (p : EntryPath) (h2 : Header)
    (hs : setPath h p = some h2) : h2 = { h with name := p.bytes } := by
  simp only [setPath] at hs
  by_cases hc : 100 ≤ p.bytes.length ∨ p.tarRejected = true
  · rw [if_pos hc] at hs
    cases hs
  · rw [if_neg hc] at hs
    exact (Option.some.inj hs).symm

theorem setLinkName_some (h : Header) (target : List Nat) (h2 : Header)
    (hs : setLinkName h target = some h2) :
    h2 = { h with linkname := target } := by
  simp only [setLinkName] at hs
  by_cases hc : 100 ≤ target.length
  · rw [if_pos hc] at hs
    cases hs
  · rw [if_neg hc] at hs
    exact (Option.some.inj hs).symm

theorem prepareLongHeader_ok (h1 h2 : Header) (p : EntryPath)
    (data : List Nat) (hdr lfh : Header)
    (h : prepareLongHeader h1 h2 p = Except.ok (data, hdr, lfh)) :
    data = p.bytes ∧ hdr = { h1 with name := p.bytes.take 100 } ∧
    lfh = setCksum
      { h2 with size := p.bytes.length + 1, typeflag := typeLongName } := by
  simp only [prepareLongHeader] at h
  by_cases hl : p.bytes.length < 100
  · rw [if_pos hl] at h
    cases h
  · rw [if_neg hl] at h
    injection h with h2
    injection h2 with ha hbc
    injection hbc with hb hc
    exact ⟨ha.symm, hb.symm, hc.symm⟩

theorem hdr_not_mem_raw (hd : Header) (l : List (List Nat)) :
    Chunk.hdr hd ∉ l.map Chunk.raw := by
  intro hmem
  rcases List.mem_map.mp hmem with ⟨bs, _, hEq⟩
  cases hEq

theorem applyName_good (t : TarHelper) (p : EntryPath) (hinv : tarInv t)
    (t2 : TarHelper) (pre : List (Option Chunk))
    (h : applyName t p = Except.ok (t2, pre)) :
    tarInv t2 ∧ ∀ hd : Header, some (Chunk.hdr hd) ∈ pre → goodHeader hd := by
  unfold applyName at h
  cases hsp : setPath t.header p with
  | some h1 =>
    rw [hsp] at h
    simp only at h
    injection h with h2
    injection h2 with ht hpre
    subst ht
    have hh1 := setPath_some t.header p h1 hsp
    subst hh1
    refine ⟨⟨hinv.1, hinv.2⟩, ?_⟩
    intro hd hmem
    rw [← hpre] at hmem
    simp at hmem
  | none =>
    rw [hsp] at h
    simp only at h
    cases hpl : prepareLongHeader t.header t.longFilenameHeader p with
    | error e =>
      rw [hpl] at h
      simp at h
    | ok tr =>
      obtain ⟨data, hdr, lfh⟩ := tr
      rw [hpl] at h
      simp only at h
      obtain ⟨hdata, hhdr, hlfh⟩ := prepareLongHeader_ok _ _ _ _ _ _ hpl
      subst hdata hhdr hlfh
      injection h with h2
      injection h2 with ht hpre
      subst ht
      refine ⟨⟨hinv.1, hinv.2⟩, ?_⟩
      intro hd hmem
      rw [← hpre] at hmem
      cases hpad : pad (p.bytes.length + 1) with
      | none =>
        simp [hpad] at hmem
        subst hmem
        exact goodHeader_setCksum _ hinv.2.1 hinv.2.2
      | some z =>
        simp [hpad] at hmem
        subst hmem
        exact goodHeader_setCksum _ hinv.2.1 hinv.2.2

theorem applyFile_good (t : TarHelper) (p : EntryPath) (md : FileMetadata)
    (ts : Nat) (hinv : tarInv t) (slots : List (Option Chunk)) (t2 : TarHelper)
    (h : applyFile t p md ts = Except.ok (slots, t2)) :
    tarInv t2 ∧ ∀ hd : Header, some (Chunk.hdr hd) ∈ slots → goodHeader hd := by
  unfold applyFile at h
  cases han : applyName t p with
  | error e =>
    rw [han] at h
    simp at h
  | ok pr =>
    obtain ⟨t3, pre⟩ := pr
    rw [han] at h
    simp only at h
    injection h with h2
    injection h2 with hslots ht2
    subst ht2
    obtain ⟨hinv3, hgood⟩ := applyName_good t p hinv t3 pre han
    refine ⟨⟨hinv3.1, hinv3.2⟩, ?_⟩
    intro hd hmem
    rw [← hslots] at hmem
    rcases List.mem_append.mp hmem with hm | hm
    · exact hgood hd hm
    · simp at hm
      subst hm
      exact goodHeader_setCksum _ hinv3.1.1 hinv3.1.2

theorem applyDirectory_good (t : TarHelper) (p : EntryPath) (md : FileMetadata)
    (hinv : tarInv t) (slots : List (Option Chunk)) (t2 : TarHelper)
    (h : applyDirectory t p md = Except.ok (slots, t2)) :
    tarInv t2 ∧ ∀ hd : Header, some (Chunk.hdr hd) ∈ slots → goodHeader hd := by
  unfold applyDirectory at h
  cases han : applyName t p with
  | error e =>
    rw [han] at h
    simp at h
  | ok pr =>
    obtain ⟨t3, pre⟩ := pr
    rw [han] at h
    simp only at h
    injection h with h2
    injection h2 with hslots ht2
    subst ht2
    obtain ⟨hinv3, hgood⟩ := applyName_good t p hinv t3 pre han
    refine ⟨⟨hinv3.1, hinv3.2⟩, ?_⟩
    intro hd hmem
    rw [← hslots] at hmem
    rcases List.mem_append.mp hmem with hm | hm
    · exact hgood hd hm
    · simp at hm
      subst hm
      exact goodHeader_setCksum _ hinv3.1.1 hinv3.1.2

theorem applySymlink_good (t : TarHelper) (p : EntryPath) (target : List Nat)
    (md : FileMetadata) (hinv : tarInv t) (slots : List (Option Chunk))
    (t2 : TarHelper) (h : applySymlink t p target md = Out.ok (slots, t2)) :
    tarInv t2 ∧ ∀ hd : Header, some (Chunk.hdr hd) ∈ slots → goodHeader hd := by
  unfold applySymlink at h
  cases han : applyName t p with
  | error e =>
    rw [han] at h
    simp at h
  | ok pr =>
    obtain ⟨t3, pre⟩ := pr
    rw [han] at h
    simp only at h
    obtain ⟨hinv3, hgoodpre⟩ := applyName_good t p hinv t3 pre han
    cases hsl : setLinkName t3.header target with
    | some h2 =>
      rw [hsl] at h
      simp only at h
      have hh2 := setLinkName_some t3.header target h2 hsl
      subst hh2
      injection h with h3
      injection h3 with hslots ht2
      subst ht2
      refine ⟨⟨hinv3.1, hinv3.2⟩, ?_⟩
      intro hd hmem
      rw [← hslots] at hmem
      rcases List.mem_append.mp hmem with hm | hm
      · rcases List.mem_append.mp hm with hm2 | hm2
        · exact hgoodpre hd hm2
        · simp at hm2
      · simp at hm
        subst hm
        exact goodHeader_setCksum _ hinv3.1.1 hinv3.1.2
    | none =>
      rw [hsl] at h
      simp only at h
      by_cases hlt : target.length < 100
      · rw [if_pos hlt] at h
        simp at h
      · rw [if_neg hlt] at h
        simp only at h
        injection h with h3
        injection h3 with hslots ht2
        subst ht2
        refine ⟨⟨hinv3.1, hinv3.2⟩, ?_⟩
        intro hd hmem
        rw [← hslots] at hmem
        rcases List.mem_append.mp hmem with hm | hm
        · rcases List.mem_append.mp hm with hm2 | hm2
          · exact hgoodpre hd hm2
          · cases hpad : pad (target.length + 1) with
            | none =>
              simp [hpad] at hm2
              subst hm2
              exact goodHeader_setCksum _ hinv3.2.1 hinv3.2.2
            | some z =>
              simp [hpad] at hm2
              subst hm2
              exact goodHeader_setCksum _ hinv3.2.1 hinv3.2.2
        · simp at hm
          subst hm
          exact goodHeader_setCksum _ hinv3.1.1 hinv3.1.2

theorem stepWalk_good (t : TarHelper) (ev : ContinuedWalk) (hinv : tarInv t)
    (cs : List Chunk) (t2 : TarHelper) (h : stepWalk t ev = Out.ok (cs, t2)) :
    tarInv t2 ∧ ∀ hd : Header, Chunk.hdr hd ∈ cs → goodHeader hd := by
  cases ev with
  | file seg ts p md =>
    unfold stepWalk at h
    simp only at h
    cases hf : seg.isFirst with
    | false =>
      rw [hf] at h
      rw [if_neg (by simp)] at h
      simp only at h
      injection h with h2
      injection h2 with hcs ht2
      subst ht2
      refine ⟨hinv, ?_⟩
      intro hd hmem
      rw [← hcs] at hmem
      simp only [List.nil_append] at hmem
      rcases List.mem_append.mp hmem with hm | hm
      · exact absurd hm (hdr_not_mem_raw hd _)
      · by_cases hl : seg.isLast = true
        · rw [if_pos hl] at hm
          exact absurd hm (hdr_not_mem_raw hd _)
        · rw [if_neg hl] at hm
          simp at hm
    | true =>
      rw [hf] at h
      rw [if_pos rfl] at h
      cases haf : applyFile t p md ts with
      | error e =>
        rw [haf] at h
        simp at h
      | ok pr =>
        obtain ⟨slots, t3⟩ := pr
        rw [haf] at h
        simp only at h
        injection h with h2
        injection h2 with hcs ht2
        subst ht2
        obtain ⟨hinv3, hgood⟩ := applyFile_good t p md ts hinv slots t3 haf
        refine ⟨hinv3, ?_⟩
        intro hd hmem
        rw [← hcs] at hmem
        rcases List.mem_append.mp hmem with hm | hm
        · rcases List.mem_append.mp hm with hm2 | hm2
          · rcases List.mem_filterMap.mp hm2 with ⟨b, hb, hid⟩
            simp only [id] at hid
            subst hid
            exact hgood hd hb
          · exact absurd hm2 (hdr_not_mem_raw hd _)
        · by_cases hl : seg.isLast = true
          · rw [if_pos hl] at hm
            exact absurd hm (hdr_not_mem_raw hd _)
          · rw [if_neg hl] at hm
            simp at hm
  | directory p mdo =>
    unfold stepWalk at h
    cases mdo with
    | none =>
      simp only at h
      injection h with h2
      injection h2 with hcs ht2
      subst ht2
      refine ⟨hinv, ?_⟩
      intro hd hmem
      rw [← hcs] at hmem
      simp at hmem
    | some md =>
      simp only at h
      cases had : applyDirectory t p md with
      | error e =>
        rw [had] at h
        simp at h
      | ok pr =>
        obtain ⟨slots, t3⟩ := pr
        rw [had] at h
        simp only at h
        injection h with h2
        injection h2 with hcs ht2
        subst ht2
        obtain ⟨hinv3, hgood⟩ := applyDirectory_good t p md hinv slots t3 had
        refine ⟨hinv3, ?_⟩
        intro hd hmem
        rw [← hcs] at hmem
        rcases List.mem_filterMap.mp hmem with ⟨b, hb, hid⟩
        simp only [id] at hid
        subst hid
        exact hgood hd hb
  | symlink target p md =>
    unfold stepWalk at h
    simp only at h
    by_cases hu : utf8Valid target = true
    · rw [if_pos hu] at h
      cases has : applySymlink t p target md with
      | err e =>
        rw [has] at h
        simp at h
      | panicked =>
        rw [has] at h
        simp at h
      | ok pr =>
        obtain ⟨slots, t3⟩ := pr
        rw [has] at h
        simp only at h
        injection h with h2
        injection h2 with hcs ht2
        subst ht2
        obtain ⟨hinv3, hgood⟩ := applySymlink_good t p target md hinv slots t3 has
        refine ⟨hinv3, ?_⟩
        intro hd hmem
        rw [← hcs] at hmem
        rcases List.mem_filterMap.mp hmem with ⟨b, hb, hid⟩
        simp only [id] at hid
        subst hid
        exact hgood hd hb
    · rw [if_neg hu] at h
      simp at h

theorem runWalk_good : ∀ (evs : List ContinuedWalk) (t : TarHelper),
    tarInv t → ∀ hd : Header,
      Chunk.hdr hd ∈ (runWalk t evs).1 → goodHeader hd := by
  intro evs
  induction evs with
  | nil =>
    intro t _ hd hmem
    simp [runWalk] at hmem
  | cons ev rest ih =>
    intro t hinv hd hmem
    cases hstep : stepWalk t ev with
    | err e =>
      simp only [runWalk, hstep] at hmem
      simp at hmem
    | panicked =>
      simp only [runWalk, hstep] at hmem
      simp at hmem
    | ok pr =>
      obtain ⟨cs, t2⟩ := pr
      simp only [runWalk, hstep] at hmem
      obtain ⟨hinv2, hgood⟩ := stepWalk_good t ev hinv cs t2 hstep
      rcases List.mem_append.mp hmem with hm | hm
      · exact hgood hd hm
      · exact ih t2 hinv2 hd hm

/-- CLAIM C6: every header chunk ever emitted by the stream, across
    arbitrary reuse of the two mutable header templates, is a 512-byte
    header with uid 0, gid 0, and a stored checksum equal to recomputation
    of the standard tar checksum over its bytes with the checksum field read
    as spaces. -/
theorem c6_header_invariant (events : List ContinuedWalk) (hd : Header)
    (hmem : Chunk.hdr hd ∈ (runWalk initHelper events).1) :
    hd.uid = 0 ∧ hd.gid = 0 ∧ hd.cksum = checksumOf hd ∧
    (headerBytes hd).length = 512 := by
  have hg := runWalk_good events initHelper ⟨⟨rfl, rfl⟩, ⟨rfl, rfl⟩⟩ hd hmem
  exact ⟨hg.1, hg.2.1, hg.2.2, headerBytes_length hd⟩

theorem c6_header_invariant_witness :
    (setCksum (setMetadata
      { newDefaultHeader with name := [97], size := 0, typeflag := typeDirectory }
      ⟨none, none⟩ 0o755)).uid = 0 ∧
    (setCksum (setMetadata
      { newDefaultHeader with name := [97], size := 0, typeflag := typeDirectory }
      ⟨none, none⟩ 0o755)).gid = 0 ∧
    (setCksum (setMetadata
      { newDefaultHeader with name := [97], size := 0, typeflag := typeDirectory }
      ⟨none, none⟩ 0o755)).cksum = checksumOf (setCksum (setMetadata
      { newDefaultHeader with name := [97], size := 0, typeflag := typeDirectory }
      ⟨none, none⟩ 0o755)) ∧
    (headerBytes (setCksum (setMetadata
      { newDefaultHeader with name := [97], size := 0, typeflag := typeDirectory }
      ⟨none, none⟩ 0o755))).length = 512 :=
  c6_header_invariant
    [ContinuedWalk.directory ⟨[97], false⟩ (some ⟨none, none⟩)]
    (setCksum (setMetadata
      { newDefaultHeader with name := [97], size := 0, typeflag := typeDirectory }
      ⟨none, none⟩ 0o755))
    (by decide)

end RootFiles
